import Mathlib

/-!
Shallow embedding of the `xtcp` package's `server.go`.

The Go server owns:
  * a `stop` channel closed by `Stop` (Go panics when a closed channel is
    closed again);
  * a listener handle `lis` (`net.Listener`), `nil` after stop;
  * a registry `conns map[*Conn]bool`, set to `nil` by `Stop`;
  * a `sync.WaitGroup` completion counter.

Connections are modelled by abstract identifiers (`Nat`); the registry is a
duplicate-free list standing for the Go map's key set.  Effects that the Go
code performs on the outside world (closing the listener, calling
`c.Stop(mode)` on each registered connection, waiting on the WaitGroup) are
recorded in the result of the modelled operation rather than hidden, so the
theorems can speak about them.
-/

namespace XTCP

/-- The three stop modes used by `server.go` (declared in the package's
connection code; names as in the source). -/
inductive StopMode
  | StopImmediately
  | StopGracefullyButNotWait
  | StopGracefullyAndWait
  deriving DecidableEq, Repr

/-- Mutable server state shared between `Serve`, `Stop`, `addConn` and
`removeConn`: `stopClosed` models whether the `stop` channel has been
closed, `lis` the listener handle, `conns` the registry (`none` = Go `nil`
map, `some l` = the key set of the map). -/
structure ServerState where
  stopClosed : Bool
  lis : Option Nat
  conns : Option (List Nat)
  deriving DecidableEq, Repr

/-- Model of `Server.addConn` (server.go:173-182): under the mutex, fail when the
registry is `nil`, otherwise insert the connection (Go map insert: a present
key is left as is).  Returns the Go function's boolean and the new state. -/
def addConn (s : ServerState) (c : Nat) : Bool × ServerState :=
  match s.conns with
  | none => (false, s)
  | some l => (true, { s with conns := some (if c ∈ l then l else c :: l) })

/-- Model of `Server.removeConn` (server.go:184-190): under the mutex, delete the
connection from the registry unless the registry is `nil` (Go `delete` on a
map without the key is a no-op). -/
def removeConn (s : ServerState) (c : Nat) : ServerState :=
  match s.conns with
  | none => s
  | some l => { s with conns := some (l.erase c) }

/-- A Go runtime panic relevant to `Server.Stop`: `close` of an already
closed channel panics. -/
inductive GoPanic
  | closeOfClosedChannel
  deriving DecidableEq, Repr

/-- The observable outcome of one successful `Server.Stop` call. -/
structure StopResult where
  /-- server state after the call -/
  state : ServerState
  /-- whether `lis.Close()` was called (server.go:124-126) -/
  listenerClosed : Bool
  /-- the `c.Stop(m)` fan-out calls, in registry order (server.go:133-135) -/
  connStops : List (Nat × StopMode)
  /-- whether `s.wg.Wait()` was called (server.go:137-139) -/
  waited : Bool
  deriving DecidableEq, Repr

/-- Model of `Server.Stop` (server.go:111-142): `close(s.stop)` — which panics if the
channel is already closed; under the mutex take and `nil` out the listener
and the registry; close the taken listener; downgrade `StopGracefullyAndWait`
to `StopGracefullyButNotWait` for the per-connection fan-out; stop every
registered connection with the downgraded mode; wait on the WaitGroup iff the
original mode was `StopGracefullyAndWait`. -/
def stopServer (s : ServerState) (mode : StopMode) : Except GoPanic StopResult :=
  if s.stopClosed then
    Except.error GoPanic.closeOfClosedChannel
  else
    let lis := s.lis
    let conns := s.conns.getD []
    let s2 : ServerState := { stopClosed := true, lis := none, conns := none }
    let m := if mode = StopMode.StopGracefullyAndWait then
               StopMode.StopGracefullyButNotWait else mode
    Except.ok { state := s2
              , listenerClosed := lis.isSome
              , connStops := conns.map (fun c => (c, m))
              , waited := if mode = StopMode.StopGracefullyAndWait then true else false }

/-- The registry-touching operations that may interleave with `Stop`:
`addConn` (from `handleRawConn`), `removeConn` (the deferred unregister),
and `Stop` itself. -/
inductive SOp
  | add (c : Nat)
  | remove (c : Nat)
  | stop (m : StopMode)
  deriving DecidableEq, Repr

/-- Run a sequence of registry operations from a state; a `Stop` on an
already stopped server propagates the Go panic. -/
def exec (s : ServerState) : List SOp → Except GoPanic ServerState
  | [] => Except.ok s
  | op :: ops =>
    match op with
    | SOp.add c => exec (addConn s c).2 ops
    | SOp.remove c => exec (removeConn s c) ops
    | SOp.stop m =>
      match stopServer s m with
      | Except.ok r => exec r.state ops
      | Except.error e => Except.error e

/-- The state `NewServer` hands out: `stop` channel open, listener not yet
installed, empty registry (server.go:193-198). -/
def freshServer : ServerState :=
  { stopClosed := false, lis := some 1, conns := some [] }

/-- One step of the accept-backoff computation (server.go:74-82): if the
current `tempDelay` is `0` start at 5ms, otherwise double it, then cap the
result at 1000ms (1s).  Delays are in milliseconds. -/
def nextDelay (d : Nat) : Nat :=
  let d' := if d = 0 then 5 else d * 2
  if d' > 1000 then 1000 else d'

/-- What one `l.Accept()` call of the accept loop can yield: a new raw
connection, a temporary `net.Error` (tagged with whether the `stop` channel
becomes ready during the backoff sleep), or any other error (tagged with
whether the `stop` channel is already closed at the logging `select`). -/
inductive AcceptEvent
  | ok (connId : Nat)
  | tempErr (stopDuringSleep : Bool)
  | fatalErr (stopTriggered : Bool)
  deriving DecidableEq, Repr

/-- How a run of the accept loop ended. -/
inductive ExitReason
  /-- the supplied event list ran out with the loop still accepting -/
  | outOfEvents
  /-- the `case <-s.stop` branch fired inside the backoff `select` (server.go:87-88) -/
  | stoppedDuringBackoff
  /-- non-temporary accept error with `stop` closed: no error log (server.go:93-94) -/
  | fatalSilent
  /-- non-temporary accept error, `stop` open: the error is logged (server.go:95-96) -/
  | fatalLogged
  deriving DecidableEq, Repr

/-- Observable trace of one run of the accept loop. -/
structure LoopTrace where
  /-- backoff sleeps that ran to completion, in order -/
  delays : List Nat
  /-- connections dispatched to `handleRawConn`, in accept order -/
  dispatched : List Nat
  exitReason : ExitReason
  /-- value of `tempDelay` when the run ended -/
  finalDelay : Nat
  deriving DecidableEq, Repr

/-- The accept loop of `Server.Serve` (server.go:69-104), driven by a list
of `Accept` outcomes.  On success: reset `tempDelay` to 0 and dispatch the
connection.  On a temporary error: advance `tempDelay` by `nextDelay`, then
`select` between finishing the sleep (continue) and the stop signal
(return).  On any other error: return, logging iff `stop` is not closed. -/
def serveLoop (d : Nat) : List AcceptEvent → LoopTrace
  | [] => { delays := [], dispatched := [], exitReason := ExitReason.outOfEvents, finalDelay := d }
  | AcceptEvent.ok c :: evs =>
    let t := serveLoop 0 evs
    { t with dispatched := c :: t.dispatched }
  | AcceptEvent.tempErr stopDuringSleep :: evs =>
    let d' := nextDelay d
    if stopDuringSleep then
      { delays := [], dispatched := [], exitReason := ExitReason.stoppedDuringBackoff,
        finalDelay := d' }
    else
      let t := serveLoop d' evs
      { t with delays := d' :: t.delays }
  | AcceptEvent.fatalErr stopTriggered :: _ =>
    { delays := [], dispatched := [],
      exitReason := if stopTriggered then ExitReason.fatalSilent else ExitReason.fatalLogged,
      finalDelay := d }

/-- Helper describing the fully-slept backoff delays produced by a run of
consecutive temporary failures starting from `tempDelay = d`. -/
def delaysFrom (d : Nat) : Nat → List Nat
  | 0 => []
  | k + 1 => nextDelay d :: delaysFrom (nextDelay d) k

/-- A bound listener as the accept loop sees it: an abstract handle plus the
address reported by `Addr()`. -/
structure NetListener where
  id : Nat
  addr : String
  deriving DecidableEq, Repr

/-- The ambient network: what `net.Listen("tcp", addr)` returns for each
address (`none` = listen error). -/
def NetEnv : Type := String → Option NetListener

/-- Observable outcome of `Serve`'s initialisation (server.go:57-67):
the listener it installs into `s.lis`, and the address it logs. -/
structure ServeInit where
  listener : Option NetListener
  loggedAddr : Option String
  deriving DecidableEq, Repr

/-- Initialisation of `Server.Serve` (server.go:57-67): call
`net.Listen("tcp", s.Opts.LisAddr)`; on error log fatally and return; on
success log `l.Addr().String()` and install `l` as the server's listener. -/
def serveBind (lisAddr : String) (env : NetEnv) : ServeInit :=
  match env lisAddr with
  | none => { listener := none, loggedAddr := none }
  | some l => { listener := some l, loggedAddr := some l.addr }

/-- The spec's words for Serve ("**Serve**(listener): binds the listener"):
a caller-supplied listener is bound as given, the environment plays no
role.  Kept for comparison with `serveBind`, which embeds the source. -/
def serveBindSpec (listener : NetListener) : ServeInit :=
  { listener := some listener, loggedAddr := some listener.addr }

/-- The externally visible actions `handleRawConn` can perform, in order. -/
inductive HandleAction
  /-- action `conn.Close()` on the raw accepted stream (server.go:148) -/
  | closeRaw
  /-- action `tcpConn.Stop(m)` on the wrapping connection (server.go:160) -/
  | connStop (m : StopMode)
  /-- successful `s.addConn(tcpConn)` (server.go:159) -/
  | register
  /-- action `s.wg.Add(1)` (server.go:169) -/
  | wgAdd
  /-- action `tcpConn.serve()` (server.go:170) -/
  | serveConn
  /-- deferred `s.removeConn(tcpConn)` (server.go:165) -/
  | unregister
  /-- deferred `s.wg.Done()` (server.go:166) -/
  | wgDone
  deriving DecidableEq, Repr

/-- Model of `Server.handleRawConn` (server.go:144-171) as the sequence of actions it
performs.  The three booleans are the decision points, in program order:
`connsNilAtEntry` — the mutex-guarded `s.conns == nil` check at entry;
`newConnFails` — whether `NewConn` returns an error; `connsNilAtAdd` — the
registry's state inside `addConn` (it can differ from the entry snapshot
when `Stop` runs in between).  Entry check nil: close the raw stream and
return.  `NewConn` error: plain `return` — the raw stream is neither closed
nor registered.  `addConn` failure: `tcpConn.Stop(StopImmediately)` and
return.  Otherwise: register, `wg.Add(1)`, serve, then the deferred
unregister and `wg.Done()`. -/
def handleRawConn (connsNilAtEntry newConnFails connsNilAtAdd : Bool) : List HandleAction :=
  if connsNilAtEntry then
    [HandleAction.closeRaw]
  else if newConnFails then
    []
  else if connsNilAtAdd then
    [HandleAction.connStop StopMode.StopImmediately]
  else
    [HandleAction.register, HandleAction.wgAdd, HandleAction.serveConn,
     HandleAction.unregister, HandleAction.wgDone]

/-- Constant `DefaultSendBufLength` (server.go:10-13). -/
def DefaultSendBufLength : Nat := 128

/-- Model of `ServerOpts` (server.go:23-28).  `Handler` and `Protocol` are abstract
references (the server only stores and forwards them). -/
structure ServerOpts where
  LisAddr : String
  Handler : Nat
  Protocol : Nat
  SendBufLen : Nat
  deriving DecidableEq, Repr

/-- A freshly constructed `Server` (server.go:31-38, 193-198): it stores a
POINTER to the caller's `ServerOpts` (`OptsPtr` indexes a heap of
`ServerOpts`), an open stop channel, no listener yet, an empty registry. -/
structure Server where
  OptsPtr : Nat
  stopClosed : Bool
  lis : Option Nat
  conns : Option (List Nat)
  deriving DecidableEq, Repr

/-- Model of `NewServer` (server.go:193-205) over an explicit heap of `ServerOpts`
(`heap : Nat → ServerOpts`, `p` the caller's pointer): build the server
holding the same pointer `p`, then, through that pointer, overwrite
`SendBufLen` with `DefaultSendBufLength` when it is zero.  Returns the heap
after the call and the new server. -/
def newServer (heap : Nat → ServerOpts) (p : Nat) : (Nat → ServerOpts) × Server :=
  let s : Server := { OptsPtr := p, stopClosed := false, lis := none, conns := some [] }
  let o := heap p
  let heap' := if o.SendBufLen = 0
               then Function.update heap p { o with SendBufLen := DefaultSendBufLength }
               else heap
  (heap', s)

/-! ## Theorems -/

/-- C1 counterexample: `Server.Stop` is not invocable more than once.  On a
fresh server the first `Stop` succeeds, but a second invocation on the
resulting state hits `close(s.stop)` on an already closed channel, which
panics — contradicting "every invocation after the first leaves the server
in the same stopped state without failing". -/
theorem stop_second_call_panics :
    stopServer freshServer StopMode.StopImmediately
      = Except.ok { state := { stopClosed := true, lis := none, conns := none }
                  , listenerClosed := true, connStops := [], waited := false }
    ∧ stopServer { stopClosed := true, lis := none, conns := none } StopMode.StopImmediately
      = Except.error GoPanic.closeOfClosedChannel := by
  exact ⟨rfl, rfl⟩

/-- C1 amended: the FIRST `Server.Stop` call closes the stop signal, clears
the listener and the registry, and leaves the server stopped; any second
invocation panics closing the already-closed stop channel (Stop is safe to
invoke exactly once, not idempotent). -/
theorem stop_first_succeeds_second_panics (s : ServerState) (m m' : StopMode)
    (h : s.stopClosed = false) :
    ∃ r, stopServer s m = Except.ok r
      ∧ r.state.stopClosed = true
      ∧ r.state.conns = none
      ∧ r.state.lis = none
      ∧ stopServer r.state m' = Except.error GoPanic.closeOfClosedChannel := by
  unfold stopServer
  rw [h]
  exact ⟨_, rfl, rfl, rfl, rfl, rfl⟩

theorem stop_first_succeeds_second_panics_witness :
    ∃ r, stopServer freshServer StopMode.StopImmediately = Except.ok r
      ∧ r.state.stopClosed = true
      ∧ r.state.conns = none
      ∧ r.state.lis = none
      ∧ stopServer r.state StopMode.StopImmediately
          = Except.error GoPanic.closeOfClosedChannel :=
  stop_first_succeeds_second_panics freshServer StopMode.StopImmediately
    StopMode.StopImmediately rfl

/-- C3: a (first) `Server.Stop` stops every connection of the registry, with
mode `StopGracefullyButNotWait` when the server-level mode is
`StopGracefullyAndWait` and with the caller's mode otherwise, and it waits
on the WaitGroup iff the server-level mode is `StopGracefullyAndWait`. -/
theorem stop_fanout_downgrade (s : ServerState) (mode : StopMode)
    (h : s.stopClosed = false) :
    ∃ r, stopServer s mode = Except.ok r
      ∧ r.connStops = (s.conns.getD []).map
          (fun c => (c, if mode = StopMode.StopGracefullyAndWait
                        then StopMode.StopGracefullyButNotWait else mode))
      ∧ (r.waited = true ↔ mode = StopMode.StopGracefullyAndWait) := by
  unfold stopServer
  rw [h]
  refine ⟨_, rfl, rfl, ?_⟩
  split_ifs with hm <;> simp [hm]

/-- A stopping server whose registry holds connections 3 and 4. -/
def stopWitnessServer : ServerState :=
  { stopClosed := false, lis := some 1, conns := some [3, 4] }

theorem stop_fanout_downgrade_witness :
    ∃ r, stopServer stopWitnessServer StopMode.StopGracefullyAndWait = Except.ok r
      ∧ r.connStops = (stopWitnessServer.conns.getD []).map
          (fun c => (c, if StopMode.StopGracefullyAndWait = StopMode.StopGracefullyAndWait
                        then StopMode.StopGracefullyButNotWait
                        else StopMode.StopGracefullyAndWait))
      ∧ (r.waited = true ↔ StopMode.StopGracefullyAndWait = StopMode.StopGracefullyAndWait) :=
  stop_fanout_downgrade stopWitnessServer StopMode.StopGracefullyAndWait rfl

/-- C8: `NewServer` (a pure construction in this model — it performs no
I/O) leaves the effective send-buffer length at the configured value when
that is non-zero and sets it to `DefaultSendBufLength = 128` when it is
zero, and returns a server in the created state: stop channel open, no
listener, empty registry. -/
theorem newServer_sendbuf_default (heap : Nat → ServerOpts) (p : Nat) :
    ((newServer heap p).1 p).SendBufLen
      = (if (heap p).SendBufLen = 0 then DefaultSendBufLength else (heap p).SendBufLen)
    ∧ DefaultSendBufLength = 128
    ∧ (newServer heap p).2
      = { OptsPtr := p, stopClosed := false, lis := none, conns := some [] } := by
  refine ⟨?_, rfl, rfl⟩
  by_cases hz : (heap p).SendBufLen = 0
  · simp [newServer, hz, Function.update_same]
  · simp [newServer, hz]

/-- C9: when `NewConn` fails (entry registry check passed, `newConnFails`),
`handleRawConn` performs no action at all: the accepted raw stream is not
closed (it is leaked), nothing is registered or unregistered, and the
WaitGroup is not touched. -/
theorem handleRawConn_newConn_error_path (a : Bool) :
    handleRawConn false true a = []
    ∧ HandleAction.closeRaw ∉ handleRawConn false true a
    ∧ HandleAction.register ∉ handleRawConn false true a
    ∧ HandleAction.wgAdd ∉ handleRawConn false true a := by
  simp [handleRawConn]

/-- C10: `NewServer` stores the caller's `ServerOpts` pointer (aliasing, no
copy) and mutates the caller's struct in place: through the shared pointer,
`SendBufLen` is overwritten with 128 exactly when it was zero, every other
field (`LisAddr`, `Handler`, `Protocol`) is unchanged, and no other heap
cell is touched. -/
theorem newServer_mutates_caller_opts (heap : Nat → ServerOpts) (p q : Nat)
    (hq : q ≠ p) :
    (newServer heap p).2.OptsPtr = p
    ∧ (newServer heap p).1 p
      = { heap p with SendBufLen := if (heap p).SendBufLen = 0 then DefaultSendBufLength
                                    else (heap p).SendBufLen }
    ∧ ((newServer heap p).1 p).LisAddr = (heap p).LisAddr
    ∧ ((newServer heap p).1 p).Handler = (heap p).Handler
    ∧ ((newServer heap p).1 p).Protocol = (heap p).Protocol
    ∧ (newServer heap p).1 q = heap q := by
  by_cases hz : (heap p).SendBufLen = 0
  · simp [newServer, hz, Function.update_same, Function.update_noteq hq]
  · simp [newServer, hz]

/-- The caller's options for the C10 witness (`SendBufLen` left zero). -/
def optsW : ServerOpts := { LisAddr := "b", Handler := 1, Protocol := 2, SendBufLen := 0 }

theorem newServer_mutates_caller_opts_witness :
    (newServer (fun _ => optsW) 0).2.OptsPtr = 0
    ∧ (newServer (fun _ => optsW) 0).1 0
      = { (fun _ => optsW) 0 with
            SendBufLen := if ((fun _ => optsW) 0).SendBufLen = 0 then DefaultSendBufLength
                          else ((fun _ => optsW) 0).SendBufLen }
    ∧ ((newServer (fun _ => optsW) 0).1 0).LisAddr = ((fun _ => optsW) 0).LisAddr
    ∧ ((newServer (fun _ => optsW) 0).1 0).Handler = ((fun _ => optsW) 0).Handler
    ∧ ((newServer (fun _ => optsW) 0).1 0).Protocol = ((fun _ => optsW) 0).Protocol
    ∧ (newServer (fun _ => optsW) 0).1 1 = (fun _ => optsW) 1 :=
  newServer_mutates_caller_opts (fun _ => optsW) 0 1 (by decide)

/-- Helper for C2: running any interleaving of `addConn`, `removeConn` and
`Stop` from a state whose registry is already `nil` keeps the registry
`nil` (no operation of server.go ever re-creates the map). -/
theorem exec_conns_none (ops : List SOp) :
    ∀ s s', s.conns = none → exec s ops = Except.ok s' → s'.conns = none := by
  induction ops with
  | nil =>
    intro s s' h he
    simp only [exec, Except.ok.injEq] at he
    exact he ▸ h
  | cons op ops ih =>
    intro s s' h he
    cases op with
    | add c =>
      have ha : (addConn s c).2 = s := by simp [addConn, h]
      simp only [exec, ha] at he
      exact ih s s' h he
    | remove c =>
      have hr : removeConn s c = s := by simp [removeConn, h]
      simp only [exec, hr] at he
      exact ih s s' h he
    | stop m =>
      by_cases hs : s.stopClosed
      · simp [exec, stopServer, hs] at he
      · simp only [exec, stopServer, hs, Bool.false_eq_true, if_false] at he
        exact ih _ _ rfl he

/-- C2: once `Stop` has nilled the registry it stays `nil` under every
subsequent interleaving of `addConn` / `removeConn` / `Stop`; on a nilled
registry `addConn` returns `false` and changes nothing and `removeConn`
changes nothing; and (on any well-formed state) a connection is never
removed twice: after `removeConn c` the connection is gone and a second
`removeConn c` is a no-op. -/
theorem registry_nil_is_absorbing (s : ServerState) (c : Nat) (ops : List SOp)
    (hwf : ∀ l, s.conns = some l → l.Nodup) :
    (s.conns = none →
      (∀ s', exec s ops = Except.ok s' → s'.conns = none)
      ∧ (addConn s c).1 = false
      ∧ (addConn s c).2 = s
      ∧ removeConn s c = s)
    ∧ removeConn (removeConn s c) c = removeConn s c
    ∧ (∀ l, (removeConn s c).conns = some l → c ∉ l) := by
  constructor
  · intro h
    refine ⟨fun s' he => exec_conns_none ops s s' h he, ?_, ?_, ?_⟩
    all_goals simp [addConn, removeConn, h]
  · cases hc : s.conns with
    | none =>
      constructor
      · simp [removeConn, hc]
      · intro l hl
        rw [removeConn, hc] at hl
        rw [hc] at hl
        exact absurd hl (by simp)
    | some l =>
      have hnd := hwf l hc
      have hnm : c ∉ l.erase c := fun hm =>
        (((List.Nodup.mem_erase_iff hnd).1 hm).1) rfl
      constructor
      · simp [removeConn, hc, List.erase_of_not_mem hnm]
      · intro l' hl'
        simp only [removeConn, hc] at hl'
        cases hl'
        exact hnm

theorem registry_nil_is_absorbing_witness :
    (addConn { stopClosed := true, lis := none, conns := none } 3).1 = false
    ∧ (addConn { stopClosed := true, lis := none, conns := none } 3).2
      = { stopClosed := true, lis := none, conns := none } :=
  ⟨((registry_nil_is_absorbing { stopClosed := true, lis := none, conns := none } 3
      [SOp.add 3, SOp.remove 3] (fun _ hl => nomatch hl)).1 rfl).2.1,
   ((registry_nil_is_absorbing { stopClosed := true, lis := none, conns := none } 3
      [SOp.add 3, SOp.remove 3] (fun _ hl => nomatch hl)).1 rfl).2.2.1⟩

/-- C6: a stream accepted after `Stop` has begun — the registry is already
`nil` at `handleRawConn`'s entry check, or the `addConn` registration
attempt fails — is closed immediately (directly via `conn.Close()`, or via
`tcpConn.Stop(StopImmediately)` on the wrapping connection) and is never
registered or served. -/
theorem handleRawConn_rejects_after_stop (e f a : Bool)
    (h : e = true ∨ (f = false ∧ a = true)) :
    (handleRawConn e f a = [HandleAction.closeRaw]
      ∨ handleRawConn e f a = [HandleAction.connStop StopMode.StopImmediately])
    ∧ HandleAction.register ∉ handleRawConn e f a
    ∧ HandleAction.serveConn ∉ handleRawConn e f a := by
  rcases h with h | ⟨hf, ha⟩
  · subst h
    cases f <;> cases a <;> decide
  · subst hf; subst ha
    cases e <;> decide

theorem handleRawConn_rejects_after_stop_witness :
    (handleRawConn true false false = [HandleAction.closeRaw]
      ∨ handleRawConn true false false = [HandleAction.connStop StopMode.StopImmediately])
    ∧ HandleAction.register ∉ handleRawConn true false false
    ∧ HandleAction.serveConn ∉ handleRawConn true false false :=
  handleRawConn_rejects_after_stop true false false (Or.inl rfl)

/-- One backoff step maps the capped value `min (5 * 2 ^ i) 1000` to
`min (5 * 2 ^ (i + 1)) 1000`. -/
theorem nextDelay_min_pow (i : Nat) :
    nextDelay (min (5 * 2 ^ i) 1000) = min (5 * 2 ^ (i + 1)) 1000 := by
  have ha : 1 ≤ 2 ^ i := Nat.one_le_two_pow
  simp only [nextDelay]
  rw [pow_succ]
  split_ifs <;> omega

/-- Closed form of the backoff delays along a run of consecutive temporary
failures starting from an already-capped delay. -/
theorem delaysFrom_min_pow :
    ∀ (k i : Nat), delaysFrom (min (5 * 2 ^ i) 1000) k
      = (List.range k).map (fun j => min (5 * 2 ^ (i + 1 + j)) 1000) := by
  intro k
  induction k with
  | zero => intro i; simp [delaysFrom]
  | succ k ih =>
    intro i
    rw [List.range_succ_eq_map, List.map_cons]
    simp only [delaysFrom, nextDelay_min_pow]
    congr 1
    rw [ih (i + 1), List.map_map]
    apply List.map_congr_left
    intro a _
    simp only [Function.comp_apply, Nat.succ_eq_add_one]
    rw [show i + 1 + 1 + a = i + 1 + (a + 1) from by omega]

/-- The delays of a pure run of temporary failures are `delaysFrom`. -/
theorem serveLoop_tempErr_replicate :
    ∀ (k d : Nat), (serveLoop d (List.replicate k (AcceptEvent.tempErr false))).delays
      = delaysFrom d k := by
  intro k
  induction k with
  | zero => intro d; rfl
  | succ k ih =>
    intro d
    simp [List.replicate_succ, serveLoop, delaysFrom, ih (nextDelay d)]

/-- C4: along `k` consecutive temporary accept errors the completed backoff
sleeps are `5, 10, 20, …` ms — the `i`-th is `min (5·2^i) 1000` ms, capped
at 1000ms; a successful accept resets the state so the next temporary
failure sleeps 5ms again; and a temporary failure whose backoff sleep is
interrupted by the stop signal ends the loop at once (no completed sleep,
no further event processed). -/
theorem serve_backoff_schedule (k d c : Nat) (evs : List AcceptEvent) :
    (serveLoop 0 (List.replicate k (AcceptEvent.tempErr false))).delays
      = (List.range k).map (fun i => min (5 * 2 ^ i) 1000)
    ∧ (serveLoop d (AcceptEvent.ok c :: AcceptEvent.tempErr false :: evs)).delays
      = 5 :: (serveLoop 5 evs).delays
    ∧ serveLoop d (AcceptEvent.tempErr true :: evs)
      = { delays := [], dispatched := [], exitReason := ExitReason.stoppedDuringBackoff,
          finalDelay := nextDelay d } := by
  have hn : nextDelay 0 = 5 := rfl
  refine ⟨?_, ?_, ?_⟩
  · rw [serveLoop_tempErr_replicate k 0]
    cases k with
    | zero => rfl
    | succ k =>
      have h5 : min (5 * 2 ^ 0) 1000 = 5 := by norm_num
      have hrec := delaysFrom_min_pow k 0
      rw [h5] at hrec
      simp only [delaysFrom, hn]
      rw [hrec, List.range_succ_eq_map, List.map_cons, List.map_map]
      congr 1
      apply List.map_congr_left
      intro a _
      simp only [Function.comp_apply, Nat.succ_eq_add_one]
      rw [show 0 + 1 + a = a + 1 from by omega]
  · simp [serveLoop, hn]
  · rfl

/-- C7: a temporary accept error never by itself ends the accept loop — with
no pending stop the loop goes on with the rest of the events (and with a
pending stop the exit reason is the stop, never a fatal error); any other
accept error ends the loop immediately, and it is logged (`fatalLogged`)
iff the stop signal has not been triggered. -/
theorem serve_accept_error_handling (d : Nat) (evs : List AcceptEvent) (b st : Bool) :
    (serveLoop d (AcceptEvent.tempErr b :: evs)).exitReason
      = (if b then ExitReason.stoppedDuringBackoff
         else (serveLoop (nextDelay d) evs).exitReason)
    ∧ (serveLoop d (AcceptEvent.fatalErr st :: evs)).exitReason
      = (if st then ExitReason.fatalSilent else ExitReason.fatalLogged)
    ∧ (serveLoop d (AcceptEvent.fatalErr st :: evs)).dispatched = []
    ∧ ((serveLoop d (AcceptEvent.fatalErr st :: evs)).exitReason = ExitReason.fatalLogged
        ↔ st = false) := by
  cases b <;> cases st <;> simp [serveLoop]

/-- Options fixing the configured listen address used in the C5 counterexample. -/
def opts0 : ServerOpts := { LisAddr := "a", Handler := 0, Protocol := 0, SendBufLen := 0 }

/-- A network in which listening on any address yields listener 7. -/
def env1 : NetEnv := fun _ => some { id := 7, addr := "a" }

/-- A network in which listening on any address yields listener 8. -/
def env2 : NetEnv := fun _ => some { id := 8, addr := "a" }

/-- C5 counterexample: the listener `Serve` binds is not a caller-supplied
argument — `Serve` takes none — but the listener returned by
`net.Listen("tcp", s.Opts.LisAddr)`: with every caller-visible input held
fixed, the bound listener still varies with the ambient network (7 under
`env1`, 8 under `env2`), and under `env2` it differs from what binding the
(would-be) supplied listener 7 would give. -/
theorem serve_listener_not_caller_supplied :
    serveBind opts0.LisAddr env1 ≠ serveBind opts0.LisAddr env2
    ∧ serveBind opts0.LisAddr env1 = serveBindSpec { id := 7, addr := "a" }
    ∧ serveBind opts0.LisAddr env2 ≠ serveBindSpec { id := 7, addr := "a" } := by
  refine ⟨?_, rfl, ?_⟩ <;> decide

/-- C5 amended: `Server.Serve` takes no listener argument; it creates its
own listener by calling `net.Listen("tcp", ·)` on the configured address
`Opts.LisAddr`, installs exactly that listener, and logs its bound address
(no listener and no log when listening fails), then runs the accept loop
until stopped. -/
theorem serve_creates_own_listener (opts : ServerOpts) (env : NetEnv) :
    (serveBind opts.LisAddr env).listener = env opts.LisAddr
    ∧ (serveBind opts.LisAddr env).loggedAddr = (env opts.LisAddr).map NetListener.addr := by
  cases h : env opts.LisAddr <;> simp [serveBind, h]

end XTCP
